import Mathlib

/-!
Shallow embedding of the defguard enrollment-token and MFA-secret lifecycle
engine (src/db/models/enrollment.rs and src/db/models/user.rs).

Conventions of the embedding:
- timestamps (chrono `NaiveDateTime`) are `Int` seconds; the current time is
  passed explicitly wherever the source calls `Utc::now()`;
- the enrollment table is a `List Enrollment`; SQL statements become list
  operations on it;
- the user / wallet / webauthn tables are a `Store`; `UPDATE ... WHERE id`
  becomes a map over the association list of user rows;
- random generation (`gen_alphanumeric`, `thread_rng`) is passed in as
  explicit parameters (the fresh token id, the recovery-code generator);
- fallible database operations return `Except`;
- the Rust casts `u64 as i64` are modelled by `u64AsI64`; chrono duration
  arithmetic panics outside its representable range, so the embedding covers
  the non-panicking range.
-/

namespace Defguard

instance {ε α : Type} [DecidableEq ε] [DecidableEq α] : DecidableEq (Except ε α) :=
  fun a b =>
    match a, b with
    | .ok x, .ok y =>
      if h : x = y then isTrue (by rw [h]) else isFalse (fun hc => h (Except.ok.inj hc))
    | .ok _, .error _ => isFalse (fun hc => Except.noConfusion hc)
    | .error _, .ok _ => isFalse (fun hc => Except.noConfusion hc)
    | .error x, .error y =>
      if h : x = y then isTrue (by rw [h]) else isFalse (fun hc => h (Except.error.inj hc))

/-- The Rust cast `u64 as i64`: reinterpret the low 64 bits as a signed value. -/
def u64AsI64 (n : Nat) : Int :=
  let m : Nat := n % 2 ^ 64
  if m < 2 ^ 63 then (m : Int) else (m : Int) - 2 ^ 64

/-- `EnrollmentError` from src/db/models/enrollment.rs. -/
inductive EnrollmentError where
  | DbError
  | NotFound
  | TokenExpired
  | SessionExpired
  | TokenUsed
  | UserNotFound
  | AdminNotFound
  | AlreadyActive
  | NotificationError (msg : String)
  | WelcomeMsgNotConfigured
  | WelcomeEmailNotConfigured
deriving DecidableEq

/-- The `enrollment` row / `Enrollment` struct from src/db/models/enrollment.rs. -/
structure Enrollment where
  id : String
  user_id : Int
  admin_id : Int
  email : Option String
  created_at : Int
  expires_at : Int
  used_at : Option Int
deriving DecidableEq

/-- `Enrollment::new`: the random `gen_alphanumeric(32)` identity and the current
time are explicit parameters; `expires_at = now + token_timeout_seconds` via the
`u64 as i64` cast. -/
def Enrollment.new (user_id admin_id : Int) (email : Option String)
    (token_timeout_seconds : Nat) (now : Int) (freshId : String) : Enrollment :=
  { id := freshId
    user_id := user_id
    admin_id := admin_id
    email := email
    created_at := now
    expires_at := now + u64AsI64 token_timeout_seconds
    used_at := none }

/-- `Enrollment::is_expired`: `self.expires_at < Utc::now().naive_utc()`. -/
def Enrollment.is_expired (e : Enrollment) (now : Int) : Bool :=
  decide (e.expires_at < now)

/-- `Enrollment::is_used`: `self.used_at.is_some()`. -/
def Enrollment.is_used (e : Enrollment) : Bool :=
  e.used_at.isSome

/-- `Enrollment::is_session_valid`: some `used_at` is set and
`now < used_at + session_timeout_seconds`. -/
def Enrollment.is_session_valid (e : Enrollment) (session_timeout_seconds : Nat)
    (now : Int) : Bool :=
  match e.used_at with
  | some u => decide (now < u + u64AsI64 session_timeout_seconds)
  | none => false

/-- `Enrollment::start_session`: reject an expired token, then a used one;
otherwise stamp `used_at = now` (the single `UPDATE enrollment SET used_at`
on the row with this id) and return `now + session_timeout_seconds` together
with the updated struct and table. -/
def Enrollment.start_session (e : Enrollment) (db : List Enrollment)
    (session_timeout_seconds : Nat) (now : Int) :
    Except EnrollmentError (Int × Enrollment × List Enrollment) :=
  if e.is_expired now then
    .error .TokenExpired
  else if e.is_used then
    .error .TokenUsed
  else
    .ok (now + u64AsI64 session_timeout_seconds,
      { e with used_at := some now },
      db.map fun r => if r.id = e.id then { r with used_at := some now } else r)

/-- `Enrollment::find_by_id`: `SELECT ... WHERE id = $1`, absence is `NotFound`. -/
def Enrollment.find_by_id (db : List Enrollment) (tokenId : String) :
    Except EnrollmentError Enrollment :=
  match db.find? (fun e => e.id == tokenId) with
  | some e => .ok e
  | none => .error .NotFound

/-- The begin-session flow of the spec: look the token up by id, then run
`Enrollment::start_session` on it. -/
def beginSession (db : List Enrollment) (tokenId : String)
    (session_timeout_seconds : Nat) (now : Int) :
    Except EnrollmentError (Int × Enrollment × List Enrollment) :=
  match Enrollment.find_by_id db tokenId with
  | .error err => .error err
  | .ok e => e.start_session db session_timeout_seconds now

/-- `Enrollment::delete_unused_user_tokens`:
`DELETE FROM enrollment WHERE user_id = $1 AND used_at IS NULL`. -/
def Enrollment.delete_unused_user_tokens (db : List Enrollment) (user_id : Int) :
    List Enrollment :=
  db.filter fun e => !(e.user_id == user_id && e.used_at.isNone)

/-- Modelled from the spec: the enrollment engine's view of the subject user.
`User::has_password` is not among the provided sources (only its caller
`User::start_enrollment` is); per the spec, the presence of a password hash is
the signal that the account is activated, so this view carries the password
hash as an optional value. The id is the already-persisted row id (the source
reads it with `expect`, so a missing id is a panic outside the model). -/
structure EnrollmentUser where
  id : Int
  username : String
  password_hash : Option String
deriving DecidableEq

/-- Modelled from the spec: `has_password` tests the presence of the hash. -/
def EnrollmentUser.has_password (u : EnrollmentUser) : Bool :=
  u.password_hash.isSome

/-- `User::start_enrollment`: reject an activated account, delete the subject's
unused tokens, mint and insert a fresh token, optionally render and enqueue the
notification mail (template rendering and channel send are each modelled by a
success flag; either failure aborts with `NotificationError`, and because the
whole operation runs in one transaction, an error result leaves the table
unchanged). Returns the new token id and the updated table. -/
def EnrollmentUser.start_enrollment (u : EnrollmentUser) (db : List Enrollment)
    (admin_id : Int) (email : Option String) (token_timeout_seconds : Nat)
    (now : Int) (freshId : String)
    (send_user_notification template_ok mail_send_ok : Bool) :
    Except EnrollmentError (String × List Enrollment) :=
  if u.has_password then
    .error .AlreadyActive
  else
    let db1 := Enrollment.delete_unused_user_tokens db u.id
    let e := Enrollment.new u.id admin_id email token_timeout_seconds now freshId
    let db2 := db1 ++ [e]
    if send_user_notification && email.isSome then
      if !template_ok then
        .error (.NotificationError "failed to render enrollment start mail")
      else if !mail_send_ok then
        .error (.NotificationError "failed to send enrollment start mail")
      else
        .ok (e.id, db2)
    else
      .ok (e.id, db2)

/-- A token is usable exactly when `Enrollment::start_session` accepts it:
not expired and not used. -/
def usable (e : Enrollment) (now : Int) : Bool :=
  !e.is_expired now && !e.is_used

/-- The spec's wording of the usability predicate: the current time is
strictly before `expires_at` and `used_at` is null. -/
def usableSpec (e : Enrollment) (now : Int) : Prop :=
  now < e.expires_at ∧ e.used_at = none

/-- Database errors surfaced by sqlx that the embedded code branches on:
`fetch_one` on an empty result. -/
inductive SqlxError where
  | RowNotFound
deriving DecidableEq

/-- `MFAMethod` from src/db/models/user.rs. -/
inductive MFAMethod where
  | NoMethod
  | OneTimePassword
  | WebAuthnMethod
  | Web3
deriving DecidableEq

/-- `RECOVERY_CODES_COUNT` from src/db/models/user.rs. -/
def RECOVERY_CODES_COUNT : Nat := 8

/-- The `User` struct from src/db/models/user.rs (a `Vec<u8>` secret is a
`List Nat` of bytes). -/
structure User where
  id : Option Int
  username : String
  password_hash : String
  last_name : String
  first_name : String
  email : String
  phone : Option String
  ssh_key : Option String
  pgp_key : Option String
  pgp_cert_id : Option String
  totp_enabled : Bool
  totp_secret : Option (List Nat)
  mfa_method : MFAMethod
  recovery_codes : List String
deriving DecidableEq

/-- The stored columns of the `user` table that the embedded operations read
and write. -/
structure UserRow where
  totp_enabled : Bool
  totp_secret : Option (List Nat)
  recovery_codes : List String
deriving DecidableEq

/-- A row of the `wallet` table (the columns the embedded code touches). -/
structure WalletRow where
  user_id : Int
  use_for_mfa : Bool
deriving DecidableEq

/-- A row of the `webauthn` table (the columns the embedded code touches). -/
structure WebAuthnRow where
  user_id : Int
  key_id : Int
deriving DecidableEq

/-- The relational store behind the credential engine: user rows keyed by id,
plus the wallet and webauthn tables. -/
structure Store where
  users : List (Int × UserRow)
  wallets : List WalletRow
  webauthn : List WebAuthnRow
deriving DecidableEq

/-- `UPDATE "user" SET ... WHERE id = $1`: rewrite the row with the given id. -/
def Store.updateUser (s : Store) (uid : Int) (f : UserRow → UserRow) : Store :=
  { s with users := s.users.map fun p => if p.1 = uid then (p.1, f p.2) else p }

/-- Modelled from the spec: `Wallet::disable_mfa_for_user` is not among the
provided sources; per the spec the wallet store exposes an operation that drops
the MFA-eligibility flag on every wallet record of the user. -/
def Wallet.disable_mfa_for_user (wallets : List WalletRow) (uid : Int) :
    List WalletRow :=
  wallets.map fun w => if w.user_id = uid then { w with use_for_mfa := false } else w

/-- Modelled from the spec: `WebAuthn::delete_all_for_user` is not among the
provided sources; per the spec the hardware-key store exposes an operation that
deletes every security-key record of the user. -/
def WebAuthn.delete_all_for_user (keys : List WebAuthnRow) (uid : Int) :
    List WebAuthnRow :=
  keys.filter fun k => !(k.user_id == uid)

/-- The joined query inside `User::mfa_enabled`: for the stored row of the user,
stored `totp_enabled` OR some wallet of the user flagged `use_for_mfa` OR at
least one webauthn row of the user; `fetch_one` on a missing row is a database
error (`none`). -/
def Store.mfaQuery (s : Store) (uid : Int) : Option Bool :=
  match s.users.lookup uid with
  | some row =>
    some (row.totp_enabled
      || s.wallets.any (fun w => w.user_id == uid && w.use_for_mfa)
      || s.webauthn.any (fun k => k.user_id == uid))
  | none => none

/-- `User::mfa_enabled`: short-cut on the in-memory `totp_enabled`, otherwise
the joined query for a persisted user, and `false` for a user without an id. -/
def User.mfa_enabled (u : User) (s : Store) : Except SqlxError Bool :=
  if u.totp_enabled then
    .ok true
  else
    match u.id with
    | some uid =>
      match s.mfaQuery uid with
      | some b => .ok b
      | none => .error .RowNotFound
    | none => .ok false

/-- `User::enable_mfa`: no-op returning `none` when MFA is already enabled;
otherwise clear and regenerate `RECOVERY_CODES_COUNT` fresh codes (the random
generator is the explicit parameter `gen`), persist them for a persisted user,
and return the plaintext codes. -/
def User.enable_mfa (gen : Nat → String) (u : User) (s : Store) :
    Except SqlxError (Option (List String) × User × Store) :=
  match u.mfa_enabled s with
  | .error err => .error err
  | .ok true => .ok (none, u, s)
  | .ok false =>
    let codes := (List.range RECOVERY_CODES_COUNT).map gen
    let u' := { u with recovery_codes := codes }
    let s' := match u.id with
      | some uid => s.updateUser uid fun r => { r with recovery_codes := codes }
      | none => s
    .ok (some codes, u', s')

/-- `User::disable_mfa`: for a persisted user run the UPDATE that sets the
stored `totp_secret` to NULL and the stored `recovery_codes` to the empty
array, drop the wallet MFA flags and delete the webauthn records; in memory
clear the secret and the codes. The stored and in-memory `totp_enabled` flags
are not touched. -/
def User.disable_mfa (u : User) (s : Store) : User × Store :=
  let s' := match u.id with
    | some uid =>
      let s1 := s.updateUser uid fun r =>
        { r with totp_secret := none, recovery_codes := [] }
      let s2 := { s1 with wallets := Wallet.disable_mfa_for_user s1.wallets uid }
      { s2 with webauthn := WebAuthn.delete_all_for_user s2.webauthn uid }
    | none => s
  ({ u with totp_secret := none, recovery_codes := [] }, s')

/-- `User::enable_totp`: when the in-memory flag is off, write TRUE to the
stored column of a persisted user and then assign `false` to the struct field
(the assignment the source actually performs); when the flag is already on, do
nothing. -/
def User.enable_totp (u : User) (s : Store) : User × Store :=
  if !u.totp_enabled then
    let s' := match u.id with
      | some uid => s.updateUser uid fun r => { r with totp_enabled := true }
      | none => s
    ({ u with totp_enabled := false }, s')
  else
    (u, s)

/-- SQL three-valued AND over `Option Bool` (`none` is NULL). -/
def sql3And : Option Bool → Option Bool → Option Bool
  | some false, _ => some false
  | _, some false => some false
  | some true, some true => some true
  | _, _ => none

/-- SQL comparison `totp_secret = NULL`: comparing anything with NULL yields
NULL. -/
def sqlEqNull (_ : Option (List Nat)) : Option Bool :=
  none

/-- The boolean expression `FALSE AND totp_secret = NULL` that the single
UPDATE of `User::disable_totp` assigns to the `totp_enabled` column. -/
def disableTotpExpr (sec : Option (List Nat)) : Option Bool :=
  sql3And (some false) (sqlEqNull sec)

/-- `User::disable_totp`: when the in-memory flag is on, for a persisted user
run `UPDATE "user" SET totp_enabled = FALSE AND totp_secret = NULL WHERE id = $1`
(the column receives the value of that boolean expression; the stored
`totp_secret` column is not assigned) and delete the webauthn records; in
memory clear the flag and the secret. -/
def User.disable_totp (u : User) (s : Store) : User × Store :=
  if u.totp_enabled then
    let s' := match u.id with
      | some uid =>
        let s1 := s.updateUser uid fun r =>
          { r with totp_enabled :=
              match disableTotpExpr r.totp_secret with
              | some b => b
              | none => r.totp_enabled }
        { s1 with webauthn := WebAuthn.delete_all_for_user s1.webauthn uid }
      | none => s
    ({ u with totp_enabled := false, totp_secret := none }, s')
  else
    (u, s)

/-- `User::verify_code`. Modelled from the spec: the code match itself,
`TOTP::verify(code, TOTP_CODE_VALIDITY_PERIOD, timestamp)` of the otpauth
crate together with the constant `TOTP_CODE_VALIDITY_PERIOD` from src/auth,
is not among the provided sources; per the spec it decides whether the
submitted numeric code matches the TOTP computation for the secret within the
fixed time-skew window around the current Unix time, so it is abstracted as
the explicit Boolean parameter `tv` of the secret, the code and the current
Unix time. The function returns `false` when no secret is stored and otherwise
returns the verdict of the match; the system-clock failure branch of the
source is outside the model (the current time is a plain `Nat`). -/
def User.verify_code (tv : List Nat → Nat → Nat → Bool) (u : User)
    (code : Nat) (now : Nat) : Bool :=
  match u.totp_secret with
  | some sec => tv sec code now
  | none => false

/-- Rust `Iterator::position`: index of the first element satisfying `p`. -/
def position (p : String → Bool) : List String → Option Nat
  | [] => none
  | c :: t => if p c then some 0 else (position p t).map (· + 1)

/-- Rust `Vec::swap_remove(i)`: replace the element at `i` with the last
element and drop the last element. -/
def swapRemove (l : List String) (i : Nat) : List String :=
  (l.set i (l.getLast?.getD "")).dropLast

/-- `User::verify_recovery_code`: exact match against the current codes; on a
match remove the code with `swap_remove`, persist the reduced list for a
persisted user and return `true`; otherwise return `false` and leave
everything untouched. -/
def User.verify_recovery_code (u : User) (s : Store) (code : String) :
    Bool × User × Store :=
  match position (fun c => c == code) u.recovery_codes with
  | some i =>
    let codes := swapRemove u.recovery_codes i
    let u' := { u with recovery_codes := codes }
    let s' := match u.id with
      | some uid => s.updateUser uid fun r => { r with recovery_codes := codes }
      | none => s
    (true, u', s')
  | none => (false, u, s)

/-- A sample user for concrete instantiations. -/
def baseUser : User :=
  { id := some 1
    username := "hpotter"
    password_hash := "argon2-hash"
    last_name := "Potter"
    first_name := "Harry"
    email := "h.potter@hogwart.edu.uk"
    phone := none
    ssh_key := none
    pgp_key := none
    pgp_cert_id := none
    totp_enabled := false
    totp_secret := none
    mfa_method := MFAMethod.NoMethod
    recovery_codes := [] }

/-- An empty relational store. -/
def emptyStore : Store :=
  { users := [], wallets := [], webauthn := [] }

theorem u64AsI64_of_lt (n : Nat) (h : n < 2 ^ 63) : u64AsI64 n = (n : Int) := by
  have h64 : n < 2 ^ 64 := lt_trans h (by norm_num)
  show (if n % 2 ^ 64 < 2 ^ 63 then ((n % 2 ^ 64 : Nat) : Int)
      else ((n % 2 ^ 64 : Nat) : Int) - 2 ^ 64) = (n : Int)
  rw [Nat.mod_eq_of_lt h64, if_pos h]

theorem lookup_map_update (users : List (Int × UserRow)) (uid : Int)
    (f : UserRow → UserRow) :
    (users.map fun p => if p.1 = uid then (p.1, f p.2) else p).lookup uid
      = (users.lookup uid).map f := by
  induction users with
  | nil => rfl
  | cons p t ih =>
    obtain ⟨k, v⟩ := p
    simp only [List.map_cons]
    by_cases h : k = uid
    · subst h
      rw [if_pos rfl]
      simp [List.lookup]
    · rw [if_neg h]
      have hbeq : (uid == k) = false := beq_eq_false_iff_ne.mpr (Ne.symm h)
      simp only [List.lookup, hbeq]
      exact ih

theorem lookup_updateUser (s : Store) (uid : Int) (f : UserRow → UserRow) :
    (s.updateUser uid f).users.lookup uid = (s.users.lookup uid).map f :=
  lookup_map_update s.users uid f

theorem position_eq_none (p : String → Bool) (l : List String) :
    position p l = none ↔ ∀ c ∈ l, p c = false := by
  induction l with
  | nil => simp [position]
  | cons c t ih =>
    by_cases h : p c = true
    · simp [position, h, List.forall_mem_cons]
    · have h' : p c = false := by simpa using h
      simp [position, h', ih, List.forall_mem_cons]

theorem position_some_split (p : String → Bool) (l : List String) (i : Nat)
    (h : position p l = some i) :
    ∃ x a b, l = a ++ x :: b ∧ a.length = i ∧ p x = true ∧ ∀ c ∈ a, p c = false := by
  induction l generalizing i with
  | nil => simp [position] at h
  | cons c t ih =>
    by_cases hc : p c = true
    · have h0 : i = 0 := by
        simp [position, hc] at h
        omega
      exact ⟨c, [], t, rfl, by simp [h0], hc, by simp⟩
    · have hc' : p c = false := by simpa using hc
      simp only [position, hc', Bool.false_eq_true, if_false, Option.map_eq_some'] at h
      obtain ⟨j, hj, hji⟩ := h
      subst hji
      obtain ⟨x, a, b, rfl, hlen, hx, hall⟩ := ih j hj
      refine ⟨x, c :: a, b, rfl, by simp [hlen], hx, ?_⟩
      intro d hd
      rcases List.mem_cons.mp hd with rfl | hd
      · exact hc'
      · exact hall d hd

theorem set_append_len (a : List String) (y g : String) (b : List String) :
    (a ++ y :: b).set a.length g = a ++ g :: b := by
  induction a with
  | nil => rfl
  | cons c t ih => simp [ih]

theorem swapRemove_split_nil (a : List String) (y : String) :
    swapRemove (a ++ [y]) a.length = a := by
  unfold swapRemove
  rw [show a ++ [y] = a ++ y :: [] from rfl, List.getLast?_concat]
  simp only [Option.getD_some]
  rw [set_append_len]
  exact List.dropLast_concat

theorem swapRemove_split_concat (a : List String) (y : String)
    (b' : List String) (x : String) :
    swapRemove (a ++ y :: (b' ++ [x])) a.length = a ++ x :: b' := by
  unfold swapRemove
  have h1 : a ++ y :: (b' ++ [x]) = (a ++ y :: b') ++ [x] := by simp
  rw [h1, List.getLast?_concat]
  simp only [Option.getD_some]
  rw [← h1, set_append_len]
  have h2 : a ++ x :: (b' ++ [x]) = (a ++ x :: b') ++ [x] := by simp
  rw [h2]
  exact List.dropLast_concat

theorem swapRemove_facts (a b : List String) (x : String)
    (hnd : (a ++ x :: b).Nodup) (ha : x ∉ a) :
    (swapRemove (a ++ x :: b) a.length).length + 1 = (a ++ x :: b).length ∧
    x ∉ swapRemove (a ++ x :: b) a.length ∧
    ∀ c ∈ swapRemove (a ++ x :: b) a.length, c ∈ a ++ x :: b := by
  have hxb : x ∉ b := by
    have h1 : (x :: b).Nodup := hnd.of_append_right
    exact (List.nodup_cons.mp h1).1
  rcases List.eq_nil_or_concat b with rfl | ⟨b', y, hb⟩
  · rw [swapRemove_split_nil]
    refine ⟨by simp, ha, ?_⟩
    intro c hc
    simp [hc]
  · rw [List.concat_eq_append] at hb
    subst hb
    rw [swapRemove_split_concat]
    have hxy : x ≠ y := by
      intro h
      refine hxb ?_
      rw [h]
      exact List.mem_append_right b' (List.mem_singleton_self y)
    have hxb' : x ∉ b' := fun h => hxb (List.mem_append_left [y] h)
    refine ⟨by simp; omega, ?_, ?_⟩
    · intro hc
      rcases List.mem_append.mp hc with hc | hc
      · exact ha hc
      · rcases List.mem_cons.mp hc with hc | hc
        · exact hxy hc
        · exact hxb' hc
    · intro c hc
      rcases List.mem_append.mp hc with hc | hc
      · exact List.mem_append_left _ hc
      · rcases List.mem_cons.mp hc with rfl | hc
        · refine List.mem_append_right _ (List.mem_cons_of_mem _ ?_)
          exact List.mem_append_right b' (List.mem_singleton_self c)
        · exact List.mem_append_right _ (List.mem_cons_of_mem _ (List.mem_append_left _ hc))

/-- C1 (counterexample): the claim says a token is accepted by `start_session`
only when the current time is strictly before `expires_at`; but a fresh token
whose `expires_at` equals the current time (TTL 0, checked at creation time)
is accepted by `start_session` even though `now < expires_at` fails, because
the code rejects only when `expires_at < now`. -/
theorem C1_counterexample :
    ((Enrollment.new 7 1 none 0 0 "tok").start_session
        [Enrollment.new 7 1 none 0 0 "tok"] 600 0).isOk = true ∧
    ¬ usableSpec (Enrollment.new 7 1 none 0 0 "tok") 0 := by
  constructor
  · decide
  · unfold usableSpec
    decide

/-- C1 (amended): a token is usable — accepted by `start_session` — iff the
current time is not strictly after `expires_at` and `used_at` is null (the
code rejects only when `expires_at < now`, so a token is still accepted at
the instant `now = expires_at`); the predicate is true immediately after
creation by `Enrollment::new` for any token TTL below 2^63, and false forever
after `start_session` succeeds: the updated token has `used_at = some now`
and is unusable at every time thereafter, `used_at`, once set, never being
cleared. -/
theorem C1_usable_characterization :
    (∀ (e : Enrollment) (now : Int),
      usable e now = true ↔ (now ≤ e.expires_at ∧ e.used_at = none)) ∧
    (∀ (e : Enrollment) (now : Int) (db : List Enrollment) (ttl : Nat),
      usable e now = (e.start_session db ttl now).isOk) ∧
    (∀ (uid aid : Int) (em : Option String) (ttl : Nat) (now : Int) (fid : String),
      ttl < 2 ^ 63 → usable (Enrollment.new uid aid em ttl now fid) now = true) ∧
    (∀ (e : Enrollment) (db : List Enrollment) (ttl : Nat) (now : Int)
        (d : Int) (e' : Enrollment) (db' : List Enrollment),
      e.start_session db ttl now = .ok (d, e', db') →
      e'.used_at = some now ∧ ∀ t : Int, usable e' t = false) := by
  refine ⟨?_, ?_, ?_, ?_⟩
  · intro e now
    cases h : e.used_at with
    | none => simp [usable, Enrollment.is_expired, Enrollment.is_used, h, not_lt]
    | some u => simp [usable, Enrollment.is_expired, Enrollment.is_used, h]
  · intro e now db ttl
    by_cases h1 : e.is_expired now = true
    · simp [usable, Enrollment.start_session, h1, Except.isOk, Except.toBool]
    · have h1' : e.is_expired now = false := by simpa using h1
      by_cases h2 : e.is_used = true
      · simp [usable, Enrollment.start_session, h1', h2, Except.isOk, Except.toBool]
      · have h2' : e.is_used = false := by simpa using h2
        simp [usable, Enrollment.start_session, h1', h2', Except.isOk, Except.toBool]
  · intro uid aid em ttl now fid h
    have hc := u64AsI64_of_lt ttl h
    simp only [usable, Enrollment.new, Enrollment.is_expired, Enrollment.is_used, hc,
      Option.isSome_none, Bool.not_false, Bool.and_true, Bool.not_eq_true',
      decide_eq_false_iff_not, not_lt]
    omega
  · intro e db ttl now d e' db' h
    by_cases h1 : e.is_expired now = true
    · simp [Enrollment.start_session, h1] at h
    · have h1' : e.is_expired now = false := by simpa using h1
      by_cases h2 : e.is_used = true
      · simp [Enrollment.start_session, h1', h2] at h
      · have h2' : e.is_used = false := by simpa using h2
        simp only [Enrollment.start_session, h1', h2', Bool.false_eq_true, if_false,
          Except.ok.injEq, Prod.mk.injEq] at h
        obtain ⟨-, h4, -⟩ := h
        subst h4
        refine ⟨rfl, ?_⟩
        intro t
        simp [usable, Enrollment.is_used]

/-- C1 (witness): concrete instances of the amended characterization — a fresh
one-hour token is usable at creation time, and the token produced by a
successful `start_session` is unusable later. -/
theorem C1_usable_witness :
    usable (Enrollment.new 7 1 none 3600 0 "tokA") 0 = true ∧
    usable { Enrollment.new 7 1 none 3600 0 "tokA" with used_at := some 5 } 9999 = false := by
  constructor
  · exact C1_usable_characterization.2.2.1 7 1 none 3600 0 "tokA" (by norm_num)
  · exact ((C1_usable_characterization.2.2.2 (Enrollment.new 7 1 none 3600 0 "tokA")
      [] 3600 5 (5 + u64AsI64 3600)
      { Enrollment.new 7 1 none 3600 0 "tokA" with used_at := some 5 }
      [] (by decide)).2) 9999

/-- C2 (confirmed): the begin-session flow checks its preconditions in order —
a failed lookup yields `NotFound`; for a found token, expiry (`TokenExpired`)
is checked before prior use (`TokenUsed`) and the first failing check wins;
when all pass the flow stamps `used_at = now` on the token's row and returns
`now + session_ttl` (via the `u64 as i64` cast, the identity below 2^63) as
the session deadline; the table rewrite changes nothing but the `used_at`
field of the token's row, and row deletion never rewrites surviving rows, so
this stamp is the only mutation a token ever receives after creation. -/
theorem C2_begin_session_order (db : List Enrollment) (tid : String) (ttl : Nat)
    (now : Int) :
    (db.find? (fun e => e.id == tid) = none →
      beginSession db tid ttl now = .error .NotFound) ∧
    (∀ e, db.find? (fun e => e.id == tid) = some e →
      (e.is_expired now = true →
        beginSession db tid ttl now = .error .TokenExpired) ∧
      (e.is_expired now = false → e.is_used = true →
        beginSession db tid ttl now = .error .TokenUsed) ∧
      (e.is_expired now = false → e.is_used = false →
        beginSession db tid ttl now =
          .ok (now + u64AsI64 ttl, { e with used_at := some now },
            db.map fun r => if r.id = e.id then { r with used_at := some now } else r) ∧
        ∀ r ∈ db.map (fun r => if r.id = e.id then { r with used_at := some now } else r),
          r ∈ db ∨ ∃ q, q ∈ db ∧ q.id = e.id ∧ r = { q with used_at := some now })) ∧
    (ttl < 2 ^ 63 → now + u64AsI64 ttl = now + (ttl : Int)) ∧
    (∀ (db2 : List Enrollment) (uid : Int) (r : Enrollment),
      r ∈ Enrollment.delete_unused_user_tokens db2 uid → r ∈ db2) := by
  refine ⟨?_, ?_, ?_, ?_⟩
  · intro h
    simp [beginSession, Enrollment.find_by_id, h]
  · intro e hfind
    refine ⟨?_, ?_, ?_⟩
    · intro h1
      simp [beginSession, Enrollment.find_by_id, hfind, Enrollment.start_session, h1]
    · intro h1 h2
      simp [beginSession, Enrollment.find_by_id, hfind, Enrollment.start_session, h1, h2]
    · intro h1 h2
      refine ⟨?_, ?_⟩
      · simp [beginSession, Enrollment.find_by_id, hfind, Enrollment.start_session, h1, h2]
      · intro r hr
        obtain ⟨q, hq, hqr⟩ := List.mem_map.mp hr
        by_cases hid : q.id = e.id
        · right
          exact ⟨q, hq, hid, by rw [← hqr, if_pos hid]⟩
        · left
          rw [← hqr, if_neg hid]
          exact hq
  · intro h
    rw [u64AsI64_of_lt ttl h]
  · intro db2 uid r hr
    exact (List.mem_filter.mp hr).1

/-- C2 (witness): on a one-element table holding a fresh token, the flow
succeeds, stamps `used_at = 0` and returns the deadline 600. -/
theorem C2_begin_session_witness :
    beginSession
      [{ id := "t2", user_id := 7, admin_id := 1, email := none,
         created_at := 0, expires_at := 100, used_at := none }] "t2" 600 0 =
    .ok (600,
      { id := "t2", user_id := 7, admin_id := 1, email := none,
        created_at := 0, expires_at := 100, used_at := some 0 },
      [{ id := "t2", user_id := 7, admin_id := 1, email := none,
         created_at := 0, expires_at := 100, used_at := some 0 }]) := by
  have h := ((C2_begin_session_order
      [{ id := "t2", user_id := 7, admin_id := 1, email := none,
         created_at := 0, expires_at := 100, used_at := none }] "t2" 600 0).2.1
      { id := "t2", user_id := 7, admin_id := 1, email := none,
        created_at := 0, expires_at := 100, used_at := none }
      (by decide)).2.2 (by decide) (by decide)
  exact h.1.trans (by decide)

/-- C3 (confirmed): when `start_enrollment` succeeds, the resulting table
holds exactly one unconsumed token for the subject — the freshly minted one,
whose id is the returned token id — so the count of unconsumed tokens for the
subject is at most 1; every already-used token of the subject present before
the call is still present afterwards. -/
theorem C3_issue_unique_unused (u : EnrollmentUser) (db : List Enrollment)
    (admin_id : Int) (email : Option String) (ttl : Nat) (now : Int)
    (fid : String) (sn tok mok : Bool) (tid : String) (db' : List Enrollment)
    (h : u.start_enrollment db admin_id email ttl now fid sn tok mok = .ok (tid, db')) :
    db'.countP (fun e => e.user_id == u.id && e.used_at.isNone) = 1 ∧
    (∀ e ∈ db, e.user_id = u.id → e.used_at ≠ none → e ∈ db') ∧
    tid = fid := by
  have hp' : u.has_password = false := by
    by_cases hp : u.has_password = true
    · rw [EnrollmentUser.start_enrollment, if_pos hp] at h
      exact absurd h (by simp)
    · simpa using hp
  have hmain : tid = fid ∧
      db' = Enrollment.delete_unused_user_tokens db u.id ++
        [Enrollment.new u.id admin_id email ttl now fid] := by
    simp only [EnrollmentUser.start_enrollment, hp', Bool.false_eq_true, if_false] at h
    by_cases hn : (sn && email.isSome) = true
    · rw [if_pos hn] at h
      by_cases ht : (!tok) = true
      · rw [if_pos ht] at h
        exact absurd h (by simp)
      · rw [if_neg ht] at h
        by_cases hm : (!mok) = true
        · rw [if_pos hm] at h
          exact absurd h (by simp)
        · rw [if_neg hm] at h
          simp only [Except.ok.injEq, Prod.mk.injEq] at h
          exact ⟨h.1.symm, h.2.symm⟩
    · rw [if_neg hn] at h
      simp only [Except.ok.injEq, Prod.mk.injEq] at h
      exact ⟨h.1.symm, h.2.symm⟩
  obtain ⟨htid, hdb⟩ := hmain
  subst hdb
  refine ⟨?_, ?_, htid⟩
  · rw [List.countP_append]
    have hzero : (Enrollment.delete_unused_user_tokens db u.id).countP
        (fun e => e.user_id == u.id && e.used_at.isNone) = 0 := by
      rw [List.countP_eq_zero]
      intro e he
      have hf := (List.mem_filter.mp he).2
      simp only [Bool.not_eq_true'] at hf
      simp [hf]
    rw [hzero]
    simp [Enrollment.new]
  · intro e he hu hused
    refine List.mem_append_left _ (List.mem_filter.mpr ⟨he, ?_⟩)
    cases hopt : e.used_at with
    | none => exact absurd hopt hused
    | some v => simp [hopt]

/-- C3 (witness): issuing for subject 7 over a table holding one used token of
subject 7, one stale unused token of subject 7 and an unused token of another
subject: the stale token is deleted, the used one and the other subject's
token survive, and exactly one unconsumed token of subject 7 (the fresh one)
remains. -/
theorem C3_issue_witness :
    ([{ id := "used7", user_id := 7, admin_id := 1, email := none,
        created_at := 0, expires_at := 100, used_at := some 10 },
      { id := "other9", user_id := 9, admin_id := 1, email := none,
        created_at := 0, expires_at := 100, used_at := none },
      Enrollment.new 7 1 none 86400 50 "fresh"] : List Enrollment).countP
      (fun e => e.user_id == (7 : Int) && e.used_at.isNone) = 1 :=
  (C3_issue_unique_unused ⟨7, "nuser", none⟩
    [{ id := "used7", user_id := 7, admin_id := 1, email := none,
       created_at := 0, expires_at := 100, used_at := some 10 },
     { id := "stale7", user_id := 7, admin_id := 1, email := none,
       created_at := 0, expires_at := 100, used_at := none },
     { id := "other9", user_id := 9, admin_id := 1, email := none,
       created_at := 0, expires_at := 100, used_at := none }]
    1 none 86400 50 "fresh" false true true "fresh" _ (by decide)).1

/-- C6 (confirmed): issuing enrollment for a user who already has a password
set fails with `AlreadyActive`; the check precedes every table operation, so
an error result performs no writes (the operation runs inside one
transaction and returns before touching the table). -/
theorem C6_issue_already_active (u : EnrollmentUser) (db : List Enrollment)
    (admin_id : Int) (email : Option String) (ttl : Nat) (now : Int)
    (fid : String) (sn tok mok : Bool) (h : u.has_password = true) :
    u.start_enrollment db admin_id email ttl now fid sn tok mok =
      .error .AlreadyActive := by
  simp [EnrollmentUser.start_enrollment, h]

/-- C6 (witness): a user with a password hash present is rejected. -/
theorem C6_issue_already_active_witness :
    EnrollmentUser.start_enrollment ⟨7, "active", some "hash"⟩ [] 1 none
      86400 0 "f" true true true = .error .AlreadyActive :=
  C6_issue_already_active ⟨7, "active", some "hash"⟩ [] 1 none 86400 0 "f"
    true true true (by decide)

/-- A store holding the persisted row of `baseUser` and no external factors. -/
def storeBase : Store :=
  { users := [(1, { totp_enabled := false, totp_secret := none, recovery_codes := [] })],
    wallets := [], webauthn := [] }

/-- C4 (counterexample): the claim requires `totp_enabled = true` for
`verify_code` to succeed, but the function never consults that flag: with a
secret present and a matching code (the abstract matcher instantiated at an
input where the submitted code does match the TOTP computation), a user whose
`totp_enabled` is false still verifies successfully. -/
theorem C4_counterexample :
    User.verify_code (fun _ _ _ => true)
      { baseUser with totp_secret := some [1, 2, 3], totp_enabled := false }
      123456 1000 = true ∧
    ({ baseUser with totp_secret := some [1, 2, 3], totp_enabled := false }
      : User).totp_enabled = false := by
  exact ⟨rfl, rfl⟩

/-- C4 (amended): `verify_code` returns success iff a TOTP secret is present
and the submitted numeric code matches the TOTP computation within the fixed
time-skew window around the current Unix time (the abstract matcher `tv`);
the `totp_enabled` flag is not consulted — the result is unchanged under any
value of that flag — and the Boolean result carries no secret material. -/
theorem C4_verify_code_characterization (tv : List Nat → Nat → Nat → Bool)
    (u : User) (code now : Nat) :
    (User.verify_code tv u code now = true ↔
      ∃ sec, u.totp_secret = some sec ∧ tv sec code now = true) ∧
    (∀ b : Bool, User.verify_code tv { u with totp_enabled := b } code now =
      User.verify_code tv u code now) := by
  constructor
  · cases hs : u.totp_secret with
    | none => simp [User.verify_code, hs]
    | some sec => simp [User.verify_code, hs]
  · intro b
    rfl

/-- A persisted user with TOTP fully on, and its stored row. -/
def mfaOnUser : User :=
  { baseUser with totp_enabled := true, totp_secret := some [1] }

/-- The store behind `mfaOnUser`: its row, no wallets, no security keys. -/
def storeMfaOn : Store :=
  { users := [(1, { totp_enabled := true, totp_secret := some [1], recovery_codes := [] })],
    wallets := [], webauthn := [] }

/-- C5 (counterexample): `disable_mfa` clears the secret, the codes, the
wallet flags and the key records, but it does not clear `totp_enabled`; for a
persisted user whose `totp_enabled` is true, no external factors remain after
the call (the wallet and webauthn tables end empty), yet `mfa_enabled` still
returns true instead of the claimed false. -/
theorem C5_counterexample :
    ((mfaOnUser.disable_mfa storeMfaOn).2).wallets = [] ∧
    ((mfaOnUser.disable_mfa storeMfaOn).2).webauthn = [] ∧
    ((mfaOnUser.disable_mfa storeMfaOn).1).mfa_enabled
      (mfaOnUser.disable_mfa storeMfaOn).2 = .ok true := by
  exact ⟨rfl, rfl, rfl⟩

/-- C5 (amended): for a persisted user `disable_mfa` performs the four
effects as one operation — clears the in-memory TOTP secret and recovery
codes, sets the stored secret to NULL and the stored codes to the empty set,
drops the MFA flag of every wallet of the user and deletes every security-key
record of the user — and afterwards `mfa_enabled` returns false provided the
user's `totp_enabled` flag is false both in memory and in the stored row
(`disable_mfa` leaves that flag untouched, which the counterexample
exhibits). -/
theorem C5_disable_mfa_effects (u : User) (s : Store) (uid : Int)
    (hid : u.id = some uid) :
    ((u.disable_mfa s).1).totp_secret = none ∧
    ((u.disable_mfa s).1).recovery_codes = [] ∧
    (∀ w ∈ ((u.disable_mfa s).2).wallets, w.user_id = uid → w.use_for_mfa = false) ∧
    (∀ k ∈ ((u.disable_mfa s).2).webauthn, k.user_id ≠ uid) ∧
    ((u.disable_mfa s).2).users.lookup uid =
      (s.users.lookup uid).map
        (fun r => { r with totp_secret := none, recovery_codes := [] }) ∧
    (u.totp_enabled = false →
      ∀ row, s.users.lookup uid = some row → row.totp_enabled = false →
        ((u.disable_mfa s).1).mfa_enabled (u.disable_mfa s).2 = .ok false) := by
  have hs1 : (u.disable_mfa s).1 =
      { u with totp_secret := none, recovery_codes := [] } := by
    simp only [User.disable_mfa, hid]
  have hs2 : (u.disable_mfa s).2 =
      { users := (s.updateUser uid fun r =>
          { r with totp_secret := none, recovery_codes := [] }).users,
        wallets := Wallet.disable_mfa_for_user s.wallets uid,
        webauthn := WebAuthn.delete_all_for_user s.webauthn uid } := by
    simp only [User.disable_mfa, hid]
    rfl
  refine ⟨by rw [hs1], by rw [hs1], ?_, ?_, ?_, ?_⟩
  · intro w hw
    rw [hs2] at hw
    obtain ⟨q, hq, hqw⟩ := List.mem_map.mp hw
    intro huid
    by_cases hqid : q.user_id = uid
    · rw [← hqw, if_pos hqid]
    · rw [← hqw, if_neg hqid] at huid ⊢
      exact absurd huid hqid
  · intro k hk
    rw [hs2] at hk
    have := (List.mem_filter.mp hk).2
    simpa using this
  · rw [hs2]
    exact lookup_updateUser s uid
      (fun r => { r with totp_secret := none, recovery_codes := [] })
  · intro hen row hrow hrowen
    have hlook := lookup_updateUser s uid
      (fun r => { r with totp_secret := none, recovery_codes := [] })
    rw [hrow] at hlook
    have hwal : (Wallet.disable_mfa_for_user s.wallets uid).any
        (fun w => w.user_id == uid && w.use_for_mfa) = false := by
      rw [List.any_eq_false]
      intro w hw
      obtain ⟨q, hq, hqw⟩ := List.mem_map.mp hw
      by_cases hqid : q.user_id = uid
      · rw [← hqw, if_pos hqid]
        simp
      · rw [← hqw, if_neg hqid]
        simp [hqid]
    have hkey : (WebAuthn.delete_all_for_user s.webauthn uid).any
        (fun k => k.user_id == uid) = false := by
      rw [List.any_eq_false]
      intro k hk
      have := (List.mem_filter.mp hk).2
      simpa using this
    rw [hs1, hs2]
    simp only [User.mfa_enabled, hen, hid, Bool.false_eq_true, if_false,
      Store.mfaQuery]
    simp only [hlook, hrowen, hwal, hkey]
    simp [hrowen, hwal, hkey]

/-- A persisted user with TOTP off but external factors present in the store. -/
def userExt : User :=
  { baseUser with totp_secret := some [9], recovery_codes := ["r"] }

/-- The store behind `userExt`: its row with TOTP off, one MFA-flagged wallet
and one security key. -/
def storeExt : Store :=
  { users := [(1, ⟨false, some [9], ["r"]⟩)],
    wallets := [{ user_id := 1, use_for_mfa := true }],
    webauthn := [{ user_id := 1, key_id := 5 }] }

/-- C5 (witness): disabling MFA for `userExt` leaves `mfa_enabled` false once
the wallet flag is dropped and the key deleted, since its `totp_enabled` is
false in memory and in the store. -/
theorem C5_disable_mfa_witness :
    ((userExt.disable_mfa storeExt).1).mfa_enabled
      (userExt.disable_mfa storeExt).2 = .ok false :=
  (C5_disable_mfa_effects userExt storeExt 1 rfl).2.2.2.2.2 rfl
    { totp_enabled := false, totp_secret := some [9], recovery_codes := ["r"] }
    (by decide) rfl

/-- C7 (confirmed): `enable_mfa` is a no-op returning `none` — with user and
store unchanged — when `mfa_enabled` already holds; otherwise it generates
exactly `RECOVERY_CODES_COUNT = 8` fresh codes from the random generator,
fully replaces the prior set with them (the new set does not depend on the
old one), persists them for a persisted user, and returns the plaintext
codes. -/
theorem C7_enable_mfa (gen : Nat → String) (u : User) (s : Store) :
    (u.mfa_enabled s = .ok true → u.enable_mfa gen s = .ok (none, u, s)) ∧
    (u.mfa_enabled s = .ok false →
      ∃ codes u' s', u.enable_mfa gen s = .ok (some codes, u', s') ∧
        codes = (List.range RECOVERY_CODES_COUNT).map gen ∧
        codes.length = RECOVERY_CODES_COUNT ∧
        RECOVERY_CODES_COUNT = 8 ∧
        u' = { u with recovery_codes := codes } ∧
        (∀ uid, u.id = some uid →
          s'.users.lookup uid =
            (s.users.lookup uid).map fun r => { r with recovery_codes := codes }) ∧
        (u.id = none → s' = s)) := by
  constructor
  · intro h
    simp [User.enable_mfa, h]
  · intro h
    refine ⟨(List.range RECOVERY_CODES_COUNT).map gen,
      { u with recovery_codes := (List.range RECOVERY_CODES_COUNT).map gen },
      (match u.id with
        | some uid => s.updateUser uid
            (fun r => { r with recovery_codes := (List.range RECOVERY_CODES_COUNT).map gen })
        | none => s),
      ?_, rfl, by simp, rfl, rfl, ?_, ?_⟩
    · simp [User.enable_mfa, h]
    · intro uid huid
      rw [huid]
      exact lookup_updateUser s uid
        (fun r => { r with recovery_codes := (List.range RECOVERY_CODES_COUNT).map gen })
    · intro hnone
      rw [hnone]

/-- C7 (witness): for `baseUser` over its bare store row, MFA is not yet
enabled, so enabling it returns the eight freshly generated codes. -/
theorem C7_enable_mfa_witness :
    ∃ codes u' s',
      User.enable_mfa (fun _ => "c") baseUser storeBase = .ok (some codes, u', s') ∧
      codes = (List.range RECOVERY_CODES_COUNT).map (fun _ => "c") ∧
      codes.length = RECOVERY_CODES_COUNT ∧
      RECOVERY_CODES_COUNT = 8 ∧
      u' = { baseUser with recovery_codes := codes } ∧
      (∀ uid, baseUser.id = some uid →
        s'.users.lookup uid =
          (storeBase.users.lookup uid).map fun r => { r with recovery_codes := codes }) ∧
      (baseUser.id = none → s' = storeBase) :=
  (C7_enable_mfa (fun _ => "c") baseUser storeBase).2 (by decide)

/-- C9 (counterexample): the claim says the in-memory `totp_enabled` field is
false after every `enable_totp`, but for a user whose flag is already true
the function takes no action and the field stays true after the call. -/
theorem C9_counterexample :
    ((({ baseUser with totp_enabled := true } : User).enable_totp
      emptyStore).1).totp_enabled = true := rfl

/-- C9 (amended): `enable_totp` never changes the in-memory `totp_enabled`
field — when it was false, the function writes TRUE to the stored column of a
persisted user and then assigns false (the value it already had) to the
struct field, and when it was already true the function does nothing — so the
enable path never flips the in-memory flag from false to true, and a
subsequently used copy of the object never observes `totp_enabled = true`
arising from this path. -/
theorem C9_enable_totp_amended (u : User) (s : Store) :
    ((u.enable_totp s).1).totp_enabled = u.totp_enabled ∧
    (u.totp_enabled = false → ∀ uid, u.id = some uid →
      ((u.enable_totp s).2).users.lookup uid =
        (s.users.lookup uid).map fun r => { r with totp_enabled := true }) := by
  constructor
  · by_cases h : u.totp_enabled = true
    · simp [User.enable_totp, h]
    · have h' : u.totp_enabled = false := by simpa using h
      simp [User.enable_totp, h']
  · intro h uid hid
    have hs2 : (u.enable_totp s).2 =
        s.updateUser uid (fun r => { r with totp_enabled := true }) := by
      simp [User.enable_totp, h, hid]
    rw [hs2]
    exact lookup_updateUser s uid (fun r => { r with totp_enabled := true })

/-- C9 (witness): enabling TOTP for `baseUser` (flag off, persisted as row 1)
writes TRUE to the stored column even though the in-memory field stays
false. -/
theorem C9_enable_totp_witness :
    ((baseUser.enable_totp storeBase).2).users.lookup 1 =
      (storeBase.users.lookup 1).map (fun r => { r with totp_enabled := true }) :=
  (C9_enable_totp_amended baseUser storeBase).2 rfl 1 rfl

/-- C10 (confirmed): for a persisted user with the in-memory flag on,
`disable_totp` issues a single UPDATE that assigns only the `totp_enabled`
column, and the value it assigns is the boolean expression
`FALSE AND totp_secret = NULL`, which evaluates to FALSE for every stored
secret (in SQL, comparison with NULL is NULL and `FALSE AND NULL` is FALSE);
the stored `totp_secret` column is left unchanged even though the in-memory
secret is cleared to `none`; and every WebAuthn security-key record of the
user is deleted as part of this TOTP-only operation, while the wallet table
is untouched. -/
theorem C10_disable_totp (u : User) (s : Store) (uid : Int) (row : UserRow)
    (hid : u.id = some uid) (hen : u.totp_enabled = true)
    (hrow : s.users.lookup uid = some row) :
    (∀ sec, disableTotpExpr sec = some false) ∧
    ((u.disable_totp s).2).users.lookup uid =
      some { row with totp_enabled := false } ∧
    (∀ k ∈ ((u.disable_totp s).2).webauthn, k.user_id ≠ uid) ∧
    ((u.disable_totp s).2).wallets = s.wallets ∧
    ((u.disable_totp s).1).totp_enabled = false ∧
    ((u.disable_totp s).1).totp_secret = none := by
  have hs2 : (u.disable_totp s).2 =
      { users := (s.updateUser uid fun r =>
          { r with totp_enabled :=
              match disableTotpExpr r.totp_secret with
              | some b => b
              | none => r.totp_enabled }).users,
        wallets := s.wallets,
        webauthn := WebAuthn.delete_all_for_user s.webauthn uid } := by
    simp only [User.disable_totp, hen, if_true, hid]
    rfl
  have hs1 : (u.disable_totp s).1 =
      { u with totp_enabled := false, totp_secret := none } := by
    simp only [User.disable_totp, hen, if_true, hid]
  refine ⟨fun sec => rfl, ?_, ?_, ?_, by rw [hs1], by rw [hs1]⟩
  · rw [hs2]
    have hl := lookup_updateUser s uid (fun r =>
      { r with totp_enabled :=
          match disableTotpExpr r.totp_secret with
          | some b => b
          | none => r.totp_enabled })
    rw [hrow] at hl
    exact hl
  · intro k hk
    rw [hs2] at hk
    have := (List.mem_filter.mp hk).2
    simpa using this
  · rw [hs2]

/-- C10 (witness): disabling TOTP for `mfaOnUser` (row 1 stores a secret)
leaves the stored secret in place, flips only the stored flag, and ends with
no security keys for the user. -/
theorem C10_disable_totp_witness :
    ((mfaOnUser.disable_totp storeMfaOn).2).users.lookup 1 =
      some { totp_enabled := false, totp_secret := some [1], recovery_codes := [] } ∧
    ((mfaOnUser.disable_totp storeMfaOn).1).totp_secret = none :=
  ⟨(C10_disable_totp mfaOnUser storeMfaOn 1
      ⟨true, some [1], []⟩ rfl rfl (by decide)).2.1,
   (C10_disable_totp mfaOnUser storeMfaOn 1
      ⟨true, some [1], []⟩ rfl rfl (by decide)).2.2.2.2.2⟩

/-- C8 (counterexample): with a duplicated code in the stored list, a
consumed code verifies again — the first `verify_recovery_code` succeeds and
removes only one occurrence, and the same code still verifies on the reduced
set — so the claim's "a consumed code never verifies again" fails as stated
(the stored collection is a list that can hold duplicates, and only the
first match is removed). -/
theorem C8_counterexample :
    ((({ baseUser with recovery_codes := ["a", "a"] } : User).verify_recovery_code
        emptyStore "a").1 = true) ∧
    (((({ baseUser with recovery_codes := ["a", "a"] } : User).verify_recovery_code
        emptyStore "a").2.1).verify_recovery_code
      ((({ baseUser with recovery_codes := ["a", "a"] } : User).verify_recovery_code
        emptyStore "a").2.2) "a").1 = true := by
  exact ⟨rfl, rfl⟩

/-- C8 (amended): `verify_recovery_code` performs exact string match against
the current set: on no match it returns false and leaves user and store
completely untouched — a negative result, not an error; on a match it
returns true, the set size strictly decreases by one, every remaining code
was already present, and the reduced set is persisted for a persisted user
before success is returned; provided the stored code list holds no duplicate
entries (fresh sets are random 16-character strings, duplicated only by
random collision), the matched code is removed from the set and a consumed
code never verifies again. -/
theorem C8_verify_recovery_code (u : User) (s : Store) (code : String)
    (hnd : u.recovery_codes.Nodup) :
    (code ∉ u.recovery_codes → u.verify_recovery_code s code = (false, u, s)) ∧
    (code ∈ u.recovery_codes →
      (u.verify_recovery_code s code).1 = true ∧
      ((u.verify_recovery_code s code).2.1).recovery_codes.length + 1 =
        u.recovery_codes.length ∧
      code ∉ ((u.verify_recovery_code s code).2.1).recovery_codes ∧
      (∀ c ∈ ((u.verify_recovery_code s code).2.1).recovery_codes,
        c ∈ u.recovery_codes) ∧
      (((u.verify_recovery_code s code).2.1).verify_recovery_code
          ((u.verify_recovery_code s code).2.2) code).1 = false ∧
      (∀ uid, u.id = some uid →
        ((u.verify_recovery_code s code).2.2).users.lookup uid =
          (s.users.lookup uid).map fun r =>
            { r with recovery_codes :=
                ((u.verify_recovery_code s code).2.1).recovery_codes })) := by
  constructor
  · intro hmem
    have hpos : position (fun c => c == code) u.recovery_codes = none := by
      rw [position_eq_none]
      intro c hc
      have hne : c ≠ code := fun hEq => hmem (hEq ▸ hc)
      simpa using hne
    simp [User.verify_recovery_code, hpos]
  · intro hmem
    obtain ⟨i, hpos⟩ : ∃ j, position (fun c => c == code) u.recovery_codes = some j := by
      cases hp : position (fun c => c == code) u.recovery_codes with
      | none =>
        exfalso
        have := (position_eq_none _ _).mp hp code hmem
        simp at this
      | some j => exact ⟨j, rfl⟩
    obtain ⟨x, a, b, hsplit, hlen, hx, hall⟩ := position_some_split _ _ _ hpos
    have hxcode : x = code := by simpa using hx
    subst hxcode
    have hacode : x ∉ a := by
      intro hc
      have := hall x hc
      simp at this
    have hnd' : (a ++ x :: b).Nodup := hsplit ▸ hnd
    have facts := swapRemove_facts a b x hnd' hacode
    have hnew : ((u.verify_recovery_code s x).2.1).recovery_codes =
        swapRemove u.recovery_codes i := by
      simp [User.verify_recovery_code, hpos]
    have h1 : (u.verify_recovery_code s x).1 = true := by
      simp [User.verify_recovery_code, hpos]
    have hnotin : x ∉ ((u.verify_recovery_code s x).2.1).recovery_codes := by
      rw [hnew, hsplit, ← hlen]
      exact facts.2.1
    have hlength : ((u.verify_recovery_code s x).2.1).recovery_codes.length + 1 =
        u.recovery_codes.length := by
      rw [hnew, hsplit, ← hlen]
      exact facts.1
    have hsub : ∀ c ∈ ((u.verify_recovery_code s x).2.1).recovery_codes,
        c ∈ u.recovery_codes := by
      intro c hc
      rw [hnew, hsplit, ← hlen] at hc
      rw [hsplit]
      exact facts.2.2 c hc
    have hsecond : (((u.verify_recovery_code s x).2.1).verify_recovery_code
        ((u.verify_recovery_code s x).2.2) x).1 = false := by
      have hpos2 : position (fun c => c == x)
          ((u.verify_recovery_code s x).2.1).recovery_codes = none := by
        rw [position_eq_none]
        intro c hc
        have hne : c ≠ x := fun hEq => hnotin (hEq ▸ hc)
        simpa using hne
      generalize hX : (u.verify_recovery_code s x).2.1 = X at hpos2
      generalize hY : (u.verify_recovery_code s x).2.2 = Y
      simp [User.verify_recovery_code, hpos2]
    have hpersist : ∀ uid, u.id = some uid →
        ((u.verify_recovery_code s x).2.2).users.lookup uid =
          (s.users.lookup uid).map fun r =>
            { r with recovery_codes :=
                ((u.verify_recovery_code s x).2.1).recovery_codes } := by
      intro uid huid
      rw [hnew]
      have hs2 : (u.verify_recovery_code s x).2.2 =
          s.updateUser uid
            (fun r => { r with recovery_codes := swapRemove u.recovery_codes i }) := by
        simp [User.verify_recovery_code, hpos, huid]
      rw [hs2]
      exact lookup_updateUser s uid
        (fun r => { r with recovery_codes := swapRemove u.recovery_codes i })
    exact ⟨h1, hlength, hnotin, hsub, hsecond, hpersist⟩

/-- C8 (witness): consuming code "r1" from a duplicate-free two-code user:
the consumed code no longer verifies on the updated user and store. -/
theorem C8_verify_recovery_code_witness :
    ((({ baseUser with recovery_codes := ["r1", "r2"] } : User).verify_recovery_code
        storeBase "r1").2.1.verify_recovery_code
      (({ baseUser with recovery_codes := ["r1", "r2"] } : User).verify_recovery_code
        storeBase "r1").2.2 "r1").1 = false :=
  ((C8_verify_recovery_code { baseUser with recovery_codes := ["r1", "r2"] }
      storeBase "r1" (by decide)).2 (by decide)).2.2.2.2.1

end Defguard
